import Mathlib

set_option maxHeartbeats 1000000

/-!
Verification development for `ai_study.cpp`, a terminal AI study assistant.
The C++ source is shallowly embedded below: strings are modelled as
`List Char` (for the command/line level) or `String`, JSON values as an
inductive `Json`, fallible operations as `Except Unit`, and the interactive
flashcard viewer as an explicit step function over a small state type.
-/

/-! ## Data structs (ai_study.cpp lines 24-45) -/

/-- A single term plus its definition (struct `Definition`). -/
structure Definition where
  term : String
  definition : String
  deriving Repr, DecidableEq

/-- Result object for a summary request (struct `SummaryResult`). -/
structure SummaryResult where
  summary : String
  keyPoints : List String
  definitions : List Definition
  deriving Repr, DecidableEq

/-- A single flashcard (struct `Flashcard`). -/
structure Flashcard where
  question : String
  answer : String
  deriving Repr, DecidableEq

/-- Result object for flashcard generation (struct `FlashcardResult`). -/
structure FlashcardResult where
  flashcards : List Flashcard
  deriving Repr, DecidableEq

/-! ## extract_json_block (ai_study.cpp lines 51-64) -/

/-- Index of the first occurrence of `c` (std::string::find). -/
def firstIdx (c : Char) : List Char → Option Nat
  | [] => none
  | x :: xs => if x = c then some 0 else (firstIdx c xs).map (· + 1)

/-- Index of the last occurrence of `c` (std::string::rfind). -/
def lastIdx (c : Char) : List Char → Option Nat
  | [] => none
  | x :: xs =>
    match lastIdx c xs with
    | some j => some (j + 1)
    | none => if x = c then some 0 else none

/-- `extract_json_block`: take the inclusive substring from the first open
brace to the last close brace; throw (modelled `.error ()`) if either brace
is missing or the last close brace does not come strictly after the first
open brace (lines 51-64). -/
def extract_json_block (content : List Char) : Except Unit (List Char) :=
  match firstIdx '\x7b' content, lastIdx '\x7d' content with
  | some firstBrace, some lastBrace =>
    if lastBrace ≤ firstBrace then .error ()
    else .ok ((content.drop firstBrace).take (lastBrace - firstBrace + 1))
  | _, _ => .error ()

/-! ## Flashcard viewer (ai_study.cpp lines 88-172) -/

/-- Navigator state: current card index and answer visibility
(`idx` and `showAnswer` locals at lines 95-96). -/
structure NavState where
  idx : Nat
  vis : Bool
  deriving Repr, DecidableEq

/-- Result of processing one input line: continue with a new state, or
leave the loop (the `break` on `q`/`quit`). -/
inductive StepRes where
  | cont (s : NavState)
  | quit
  deriving Repr, DecidableEq

/-- Characters treated as whitespace by `std::stoi` (via `strtol`/`isspace`
in the C locale). -/
def cIsSpace (c : Char) : Bool :=
  c == ' ' || c == '\t' || c == '\n' || c == '\x0b' || c == '\x0c' || c == '\r'

/-- `std::stoi` on a character sequence: skip leading whitespace, optional
sign, then a non-empty run of decimal digits (trailing characters ignored).
`none` models both `std::invalid_argument` (no digits) and
`std::out_of_range` (value outside the 32-bit `int` range); both are caught
by the surrounding `catch (...)` in the source. -/
def cstoi (cs : List Char) : Option Int :=
  let cs1 := cs.dropWhile cIsSpace
  let signed : Bool × List Char :=
    match cs1 with
    | '-' :: r => (true, r)
    | '+' :: r => (false, r)
    | _ => (false, cs1)
  let ds := signed.2.takeWhile Char.isDigit
  if ds = [] then none
  else
    let v0 : Int := ds.foldl (fun a c => a * 10 + (Int.ofNat (c.toNat - 48))) 0
    let v : Int := if signed.1 then -v0 else v0
    if v < -2147483648 ∨ 2147483647 < v then none else some v

/-- Leading-whitespace trim of lines 109-110: `find_first_not_of(" \t")`
followed by `substr` when a non-whitespace character exists; a string of
only spaces/tabs is left unchanged (`p == npos`). -/
def trimLead (cs : List Char) : List Char :=
  if cs.all (fun c => c == ' ' || c == '\t') then cs
  else cs.dropWhile (fun c => c == ' ' || c == '\t')

/-- Shared jump semantics of lines 143-148 and 161-165: given the parsed
target (`none` when `std::stoi` threw), move to card `t` when
`1 <= t <= N`, hiding the answer; otherwise leave the state unchanged. -/
def applyJump (n : Nat) (s : NavState) (target : Option Int) : NavState :=
  match target with
  | some t => if 1 ≤ t ∧ t ≤ (n : Int) then ⟨(t - 1).toNat, false⟩ else s
  | none => s

/-- One iteration of the viewer loop body (lines 105-169) on a deck of size
`n`. `rnd` is the raw value drawn from the Mersenne Twister; the uniform
distribution of line 129 always yields a value in `[0, n-1]`, modelled here
as `rnd % n`. -/
def navStep (n : Nat) (s : NavState) (line : List Char) (rnd : Nat) : StepRes :=
  if line = [] then .cont s
  else
    let cmd := trimLead line
    if cmd = ['f'] ∨ cmd = ['f', 'l', 'i', 'p'] then
      .cont ⟨s.idx, !s.vis⟩
    else if cmd = ['n'] ∨ cmd = ['n', 'e', 'x', 't'] then
      .cont ⟨(s.idx + 1) % n, false⟩
    else if cmd = ['p'] ∨ cmd = ['p', 'r', 'e', 'v'] then
      .cont ⟨(s.idx + n - 1) % n, false⟩
    else if cmd = ['r'] ∨ cmd = ['r', 'a', 'n', 'd', 'o', 'm'] then
      .cont ⟨rnd % n, false⟩
    else if 2 < cmd.length ∧ (cmd.take 1 = ['j'] ∨ cmd.take 4 = ['j', 'u', 'm', 'p']) then
      let numstr := cmd.filter (fun c => c.isDigit || c == '-')
      if numstr = [] then .cont s
      else .cont (applyJump n s (cstoi numstr))
    else if cmd = ['q'] ∨ cmd = ['q', 'u', 'i', 't'] then
      .quit
    else
      .cont (applyJump n s (cstoi cmd))

/-- The viewer loop (lines 100-170): consume input lines (each paired with
the raw random draw used if that line is `r`/`random`) until `quit` or end
of input, returning the final navigator state. -/
def runLoop (n : Nat) : NavState → List (List Char × Nat) → NavState
  | s, [] => s
  | s, (line, r) :: rest =>
    match navStep n s line r with
    | .quit => s
    | .cont s' => runLoop n s' rest

/-- `run_flashcard_viewer` (lines 88-172): on an empty deck print a notice
and return without entering the loop (modelled `none`); otherwise run the
loop from state `(0, false)` and return the final state. -/
def run_flashcard_viewer (deck : List Flashcard) (inputs : List (List Char × Nat)) :
    Option NavState :=
  if deck = [] then none
  else some (runLoop deck.length ⟨0, false⟩ inputs)

/-! ## JSON values (nlohmann::json, external library modelled structurally) -/

/-- A parsed JSON value, as held by `nlohmann::json`. Numbers are modelled
as integers (no claim depends on floating-point values); objects carry
their key/value pairs with unique keys, as `std::map` does. -/
inductive Json where
  | null
  | bool (b : Bool)
  | num (n : Int)
  | str (s : String)
  | arr (xs : List Json)
  | obj (kvs : List (String × Json))
  deriving Repr

/-- Key lookup on an object, `none` for a missing key or a non-object
(`contains` returns false on non-objects, so guarded accesses like
`part.contains("text") && part["text"].is_string()` never throw). -/
def jLookup (j : Json) (k : String) : Option Json :=
  match j with
  | .obj kvs => kvs.lookup k
  | _ => none

/-- Non-const `operator[](key)`: on an object a missing key is inserted as
null and returned; on null the value first becomes an empty object, so the
result is null; on any other type `nlohmann::json` throws
`type_error.305`. -/
def jGetKey (j : Json) (k : String) : Except Unit Json :=
  match j with
  | .obj kvs => .ok ((kvs.lookup k).getD .null)
  | .null => .ok .null
  | _ => .error ()

/-- Non-const `operator[](idx)`: on an array an index past the end extends
the array with nulls, so the result is null; on null the value first
becomes an array, likewise yielding null; on any other type
`nlohmann::json` throws `type_error.305`. -/
def jGetIdx (j : Json) (i : Nat) : Except Unit Json :=
  match j with
  | .arr xs => .ok (xs.getD i .null)
  | .null => .ok .null
  | _ => .error ()

/-- `j.value(key, "")` with a string default: `type_error.306` on a
non-object, the default for a missing key, and `type_error.302` when the
stored value is not a string (`get<std::string>` cannot convert). -/
def jValueStr (j : Json) (k : String) : Except Unit String :=
  match j with
  | .obj kvs =>
    match kvs.lookup k with
    | none => .ok ""
    | some (.str s) => .ok s
    | some _ => .error ()
  | _ => .error ()

/-- `get<std::string>()` on a JSON value: `type_error.302` unless the value
is a string. -/
def jGetStr (j : Json) : Except Unit String :=
  match j with
  | .str s => .ok s
  | _ => .error ()

/-! ## Assistant-content extraction (lines 296-310 and 374-388) -/

/-- Extract the assistant message content from the provider response:
`resJson["choices"][0]["message"]["content"]`, then accept a plain string,
concatenate the `text` fields of an array of parts, and throw
("Unexpected content format") otherwise. -/
def getContent (resJson : Json) : Except Unit String := do
  let choices ← jGetKey resJson "choices"
  let choice0 ← jGetIdx choices 0
  let message ← jGetKey choice0 "message"
  let msgContent ← jGetKey message "content"
  match msgContent with
  | .str s => .ok s
  | .arr parts =>
    .ok (parts.foldl
      (fun acc part =>
        match jLookup part "text" with
        | some (.str t) => acc ++ t
        | _ => acc)
      "")
  | _ => .error ()

/-! ## Domain parsers (lines 319-339 and 394-403) -/

/-- One iteration of the `definitions` loop (lines 331-336):
`d.value("term","")` and `d.value("definition","")`. -/
def defOfJson (d : Json) : Except Unit Definition := do
  let t ← jValueStr d "term"
  let df ← jValueStr d "definition"
  pure ⟨t, df⟩

/-- One iteration of the `flashcards` loop (lines 397-402):
`fc.value("question","")` and `fc.value("answer","")`. -/
def cardOfJson (fc : Json) : Except Unit Flashcard := do
  let q ← jValueStr fc "question"
  let a ← jValueStr fc "answer"
  pure ⟨q, a⟩

/-- The `key_points` block of lines 323-327: each element via
`get<std::string>()`; a missing or non-array `key_points` is skipped
entirely. -/
def keyPointsOf (j : Json) : Except Unit (List String) :=
  match jLookup j "key_points" with
  | some (.arr xs) => xs.mapM jGetStr
  | _ => .ok []

/-- The `definitions` block of lines 330-337. -/
def definitionsOf (j : Json) : Except Unit (List Definition) :=
  match jLookup j "definitions" with
  | some (.arr xs) => xs.mapM defOfJson
  | _ => .ok []

/-- The assembly of `SummaryResult` (lines 319-339). -/
def parse_summary (j : Json) : Except Unit SummaryResult := do
  let summary ← jValueStr j "summary"
  let keyPoints ← keyPointsOf j
  let defs ← definitionsOf j
  pure ⟨summary, keyPoints, defs⟩

/-- The flashcard-side field extraction of `generate_flashcards`
(lines 394-403): each `flashcards` element via
`value("question","")`/`value("answer","")`; a missing or non-array
`flashcards` yields an empty deck. -/
def cardsOf (j : Json) : Except Unit (List Flashcard) :=
  match jLookup j "flashcards" with
  | some (.arr xs) => xs.mapM cardOfJson
  | _ => .ok []

/-- The assembly of `FlashcardResult` (lines 394-405). -/
def parse_flashcards (j : Json) : Except Unit FlashcardResult := do
  let cards ← cardsOf j
  pure ⟨cards⟩

/-! ## Pipeline stages (summarize_content, generate_flashcards) -/

/-- `summarize_content` (lines 264-340), with the transport
(`call_openai_chat`, returning the raw body or throwing) and the JSON text
parser (`json::parse`, returning the parsed value or throwing) abstracted
as function parameters: both are external collaborators. The prompt
template of lines 266-287 only affects what is sent to the transport. -/
def summarize_content
    (llm : String → Except Unit String)
    (jparse : String → Except Unit Json)
    (text : String) : Except Unit SummaryResult := do
  let rawResponse ← llm text
  let resJson ← jparse rawResponse
  let content ← getContent resJson
  let jsonText ← extract_json_block content.toList
  let summaryJson ← jparse (String.mk jsonText)
  parse_summary summaryJson

/-- `generate_flashcards` (lines 345-406), abstracted like
`summarize_content`. -/
def generate_flashcards
    (llm : String → Except Unit String)
    (jparse : String → Except Unit Json)
    (text : String) : Except Unit FlashcardResult := do
  let rawResponse ← llm text
  let resJson ← jparse rawResponse
  let content ← getContent resJson
  let jsonText ← extract_json_block content.toList
  let fcJson ← jparse (String.mk jsonText)
  parse_flashcards fcJson

/-! ## Console input (main, lines 410-513) -/

/-- `std::cin >> choice` on the remaining character stream (C++11
semantics): skip whitespace, read an optional sign and a run of decimal
digits. On success the value and the unconsumed stream are returned. On
failure — no digits, or a value outside the 32-bit `int` range — the
stream's failbit is set and (since C++11) the variable is set to 0;
`none` models that failed state, after which `ignore` and `getline` are
no-ops that fail. -/
def cinReadInt (cs : List Char) : Option Int × List Char :=
  let cs1 := cs.dropWhile cIsSpace
  let signed : Bool × List Char :=
    match cs1 with
    | '-' :: r => (true, r)
    | '+' :: r => (false, r)
    | _ => (false, cs1)
  let ds := signed.2.takeWhile Char.isDigit
  let rest := signed.2.dropWhile Char.isDigit
  if ds = [] then (none, cs)
  else
    let v0 : Int := ds.foldl (fun a c => a * 10 + (Int.ofNat (c.toNat - 48))) 0
    let v : Int := if signed.1 then -v0 else v0
    if v < -2147483648 ∨ 2147483647 < v then (none, rest) else (some v, rest)

/-- Split a character stream into the successive lines `std::getline`
would deliver: segments separated by newline, where a final segment
without a trailing newline is still a line and a trailing newline adds no
empty line. -/
def splitLinesAux : List Char → List Char → List (List Char)
  | [], acc => [acc.reverse]
  | '\n' :: [], acc => [acc.reverse]
  | '\n' :: rest, acc => acc.reverse :: splitLinesAux rest []
  | c :: rest, acc => splitLinesAux rest (c :: acc)

/-- Lines of a stream; the empty stream has no lines (the first `getline`
fails at end of input). -/
def splitLines (cs : List Char) : List (List Char) :=
  match cs with
  | [] => []
  | _ => splitLinesAux cs []

/-- The continuation loop of lines 457-469: while the accumulated text
ends in a backslash, strip it, append a newline, and read another line;
stop at end of input or at an empty line. Returns the text and the
unconsumed lines. -/
def contLoop : List (List Char) → List Char → List Char × List (List Char)
  | ls, acc =>
    if acc.getLast? = some '\\' then
      let acc2 := acc.dropLast ++ ['\n']
      match ls with
      | [] => (acc2, [])
      | l :: ls' => if l = [] then (acc2, ls') else contLoop ls' (acc2 ++ l)
    else (acc, ls)

/-- The multi-line input stage of `main` (lines 435-469): read the first
line — `none` when input is exhausted ("No input detected") or the first
line is empty ("No text entered") — then run the backslash-continuation
loop. -/
def readUserText : List (List Char) → Option (List Char × List (List Char))
  | [] => none
  | l :: ls => if l = [] then none else some (contLoop ls l)

/-- Observable outcome of one run of `main`: the process exit status, and
whether the summary flow (lines 482-496) and the flashcard flow
(lines 499-503) were entered. -/
structure MainOut where
  exitCode : Nat
  ranSummary : Bool
  ranFlash : Bool
  deriving Repr, DecidableEq

/-- `main` (lines 410-513) as a function of the standard-input character
stream and the two external collaborators (transport and JSON parser).
Reads the numeric choice, drains the rest of that line
(`cin.ignore(..., '\n')`), reads the study text, then dispatches on the
choice; every thrown error is caught by the top-level handler (lines
505-508), which reports it and falls through to `return 0`. All throw
sites in the source throw `std::runtime_error` or `nlohmann` exceptions,
both derived from `std::exception`, so the single catch clause covers
them; the viewer only performs terminal I/O and never throws, so its
effect on the modelled outcome is nil. -/
def mainProgram (stdin : List Char)
    (llm : String → Except Unit String)
    (jparse : String → Except Unit Json) : MainOut :=
  let choiceRead := cinReadInt stdin
  match choiceRead.1 with
  | none => ⟨0, false, false⟩
  | some choice =>
    let rest := (choiceRead.2.dropWhile (· ≠ '\n')).drop 1
    match readUserText (splitLines rest) with
    | none => ⟨0, false, false⟩
    | some (userText, _restLines) =>
      if userText = [] then ⟨0, false, false⟩
      else if choice = 1 ∨ choice = 3 then
        match summarize_content llm jparse (String.mk userText) with
        | .error _ => ⟨0, true, false⟩
        | .ok _ =>
          if choice = 2 ∨ choice = 3 then
            match generate_flashcards llm jparse (String.mk userText) with
            | .error _ => ⟨0, true, true⟩
            | .ok _ => ⟨0, true, true⟩
          else ⟨0, true, false⟩
      else if choice = 2 ∨ choice = 3 then
        match generate_flashcards llm jparse (String.mk userText) with
        | .error _ => ⟨0, false, true⟩
        | .ok _ => ⟨0, false, true⟩
      else ⟨0, false, false⟩


/-! ## Analysis definitions

Predicates used to state claims about the embedding. `jumpAsClaimed`
follows the words of the claim it serves, for comparison with the
source-derived `navStep`; the well-typedness predicates delimit the JSON
shapes on which the parsers are total. -/

/-- Following the claim's description of the jump interpretation: the
target is the integer parsed from the concatenation of every digit and
minus character occurring anywhere in the line, and an in-range target
moves to that card hiding the answer while anything else changes
nothing. -/
def jumpAsClaimed (n : Nat) (s : NavState) (line : List Char) : StepRes :=
  match cstoi (line.filter (fun c => c.isDigit || c == '-')) with
  | some t => if 1 ≤ t ∧ t ≤ (n : Int) then .cont ⟨(t - 1).toNat, false⟩ else .cont s
  | none => .cont s

/-- The literal command tokens of the viewer's vocabulary. -/
def litCmds : List (List Char) :=
  [['f'], ['f', 'l', 'i', 'p'], ['n'], ['n', 'e', 'x', 't'],
   ['p'], ['p', 'r', 'e', 'v'], ['r'], ['r', 'a', 'n', 'd', 'o', 'm'],
   ['q'], ['q', 'u', 'i', 't']]

/-- The guard of the jump branch (line 133). -/
def isJumpForm (cmd : List Char) : Bool :=
  decide (2 < cmd.length) && (cmd.take 1 == ['j'] || cmd.take 4 == ['j', 'u', 'm', 'p'])

/-- A parsed jump target that effects no move: parsing failed, or the
value lies outside `[1, n]`. -/
def outOfRange (n : Nat) : Option Int → Bool
  | none => true
  | some t => !(decide (1 ≤ t) && decide (t ≤ (n : Int)))

/-- Input lines that the viewer provably absorbs as no-ops on a deck of
size `n`: the empty line, and any line whose trimmed form is none of the
literal tokens and whose numeric interpretation — the digit/minus
characters for a jump-form line, the `std::stoi` prefix otherwise — fails
to parse or is out of range. -/
def ignoredInput (n : Nat) (line : List Char) : Bool :=
  line == [] ||
  (let cmd := trimLead line
   !litCmds.contains cmd &&
   (if isJumpForm cmd then
      outOfRange n (cstoi (cmd.filter (fun c => c.isDigit || c == '-')))
    else outOfRange n (cstoi cmd)))

/-- Is the JSON value a string? -/
def isStrJ : Json → Bool
  | .str _ => true
  | _ => false

/-- Is the JSON value an object? -/
def isObjJ : Json → Bool
  | .obj _ => true
  | _ => false

/-- The key is either absent or bound to a string. -/
def strOrMissing (j : Json) (k : String) : Bool :=
  match jLookup j k with
  | none => true
  | some (.str _) => true
  | some _ => false

/-- A `definitions` element the parser is total on: an object whose
`term`/`definition` are strings when present. -/
def defWT (d : Json) : Bool :=
  isObjJ d && strOrMissing d "term" && strOrMissing d "definition"

/-- A `flashcards` element the parser is total on: an object whose
`question`/`answer` are strings when present. -/
def cardWT (fc : Json) : Bool :=
  isObjJ fc && strOrMissing fc "question" && strOrMissing fc "answer"

/-- Summary payloads on which every field access of lines 319-339 is
well-typed: an object whose `summary` is a string when present, whose
`key_points` elements are strings when it is an array, and whose
`definitions` elements satisfy `defWT` when it is an array. -/
def summaryWT (j : Json) : Bool :=
  isObjJ j && strOrMissing j "summary" &&
  (match jLookup j "key_points" with
   | some (.arr xs) => xs.all isStrJ
   | _ => true) &&
  (match jLookup j "definitions" with
   | some (.arr xs) => xs.all defWT
   | _ => true)

/-- Flashcard payloads on which every field access of lines 394-403 is
well-typed. -/
def flashWT (j : Json) : Bool :=
  match jLookup j "flashcards" with
  | some (.arr xs) => xs.all cardWT
  | _ => true

/-! ## Helper lemmas -/

/-- A jump action never moves the index out of `[0, n-1]`. -/
theorem applyJump_idx_lt (n : Nat) (s : NavState) (hs : s.idx < n)
    (t : Option Int) : (applyJump n s t).idx < n := by
  cases t with
  | none => exact hs
  | some v =>
    simp only [applyJump]
    split
    · next hv =>
      obtain ⟨hv1, hv2⟩ := hv
      show (v - 1).toNat < n
      omega
    · exact hs

/-- One viewer step preserves the index bound. -/
theorem navStep_idx_lt (n : Nat) (hn : 0 < n) (s : NavState) (hs : s.idx < n)
    (line : List Char) (r : Nat) (s' : NavState)
    (h : navStep n s line r = .cont s') : s'.idx < n := by
  simp only [navStep] at h
  repeat' split at h
  all_goals
    first
      | exact (StepRes.noConfusion h)
      | (injection h with h2
         subst h2
         first
           | exact hs
           | exact Nat.mod_lt _ hn
           | exact applyJump_idx_lt n s hs _)

/-- The whole viewer loop preserves the index bound. -/
theorem runLoop_idx_lt (n : Nat) (hn : 0 < n) (inputs : List (List Char × Nat)) :
    ∀ s : NavState, s.idx < n → (runLoop n s inputs).idx < n := by
  induction inputs with
  | nil => intro s hs; exact hs
  | cons p rest ih =>
    intro s hs
    obtain ⟨line, r⟩ := p
    simp only [runLoop]
    cases hstep : navStep n s line r with
    | quit => exact hs
    | cont s' => exact ih s' (navStep_idx_lt n hn s hs line r s' hstep)

/-- Evaluation of a `next` step. -/
theorem navStep_next (n : Nat) (s : NavState) (r : Nat) :
    navStep n s ['n', 'e', 'x', 't'] r = .cont ⟨(s.idx + 1) % n, false⟩ := rfl

/-- `k+1` consecutive `next` commands advance the index by `k+1` modulo the
deck size and leave the answer hidden. -/
theorem runLoop_replicate_next (n : Nat) :
    ∀ (k i : Nat) (b : Bool),
      runLoop n ⟨i, b⟩ (List.replicate (k + 1) (['n', 'e', 'x', 't'], 0))
        = ⟨(i + (k + 1)) % n, false⟩ := by
  intro k
  induction k with
  | zero =>
    intro i b
    simp only [List.replicate, runLoop, navStep_next]
  | succ m ih =>
    intro i b
    rw [List.replicate_succ]
    rw [show runLoop n ⟨i, b⟩
          ((['n', 'e', 'x', 't'], 0) :: List.replicate (m + 1) (['n', 'e', 'x', 't'], 0))
        = runLoop n ⟨(i + 1) % n, false⟩
            (List.replicate (m + 1) (['n', 'e', 'x', 't'], 0)) from rfl]
    rw [ih ((i + 1) % n) false]
    congr 1
    rw [Nat.mod_add_mod]
    congr 1
    omega

/-- Trimming does not touch a line whose first character is not a space or
tab. -/
theorem trimLead_cons (c : Char) (cs : List Char)
    (hc : (c == ' ' || c == '\t') = false) : trimLead (c :: cs) = c :: cs := by
  simp [trimLead, List.all_cons, List.dropWhile_cons, hc]

/-- An out-of-range (or unparsed) target makes the jump a no-op. -/
theorem applyJump_outOfRange (n : Nat) (s : NavState) (t : Option Int)
    (h : outOfRange n t = true) : applyJump n s t = s := by
  cases t with
  | none => rfl
  | some v =>
    simp only [outOfRange, Bool.not_eq_true', Bool.and_eq_false_iff,
      decide_eq_false_iff_not] at h
    simp only [applyJump]
    rw [if_neg]
    rintro ⟨h1, h2⟩
    rcases h with h | h
    · exact h h1
    · exact h h2

/-- The jump branch of `navStep` agrees with `jumpAsClaimed`. -/
theorem jumpBranch_eq_claimed (n : Nat) (s : NavState) (line : List Char) :
    (if line.filter (fun c => c.isDigit || c == '-') = [] then StepRes.cont s
     else .cont (applyJump n s (cstoi (line.filter (fun c => c.isDigit || c == '-')))))
      = jumpAsClaimed n s line := by
  by_cases hns : line.filter (fun c => c.isDigit || c == '-') = []
  · rw [if_pos hns]
    simp [jumpAsClaimed, hns, cstoi]
  · rw [if_neg hns]
    simp only [jumpAsClaimed, applyJump]
    cases cstoi (line.filter (fun c => c.isDigit || c == '-')) with
    | none => rfl
    | some t =>
      show StepRes.cont (if 1 ≤ t ∧ t ≤ (n : Int) then ⟨(t - 1).toNat, false⟩ else s)
          = if 1 ≤ t ∧ t ≤ (n : Int) then StepRes.cont ⟨(t - 1).toNat, false⟩
            else StepRes.cont s
      by_cases ht : 1 ≤ t ∧ t ≤ (n : Int)
      · rw [if_pos ht, if_pos ht]
      · rw [if_neg ht, if_neg ht]

/-- Any line of length at least 3 whose first character is `j` lands in the
jump branch and is handled exactly as `jumpAsClaimed` describes. -/
theorem navStep_jprefix (n : Nat) (s : NavState) (r : Nat) (cs' : List Char)
    (hlen : 2 ≤ cs'.length) :
    navStep n s ('j' :: cs') r = jumpAsClaimed n s ('j' :: cs') := by
  have htrim : trimLead ('j' :: cs') = 'j' :: cs' := trimLead_cons _ _ (by decide)
  simp only [navStep, htrim]
  rw [if_neg (by simp), if_neg (by simp), if_neg (by simp), if_neg (by simp),
    if_neg (by simp)]
  rw [if_pos ⟨by simp; omega, Or.inl (by simp)⟩]
  exact jumpBranch_eq_claimed n s ('j' :: cs')

/-- The Bool guard `isJumpForm` decides the jump branch's condition. -/
theorem isJumpForm_iff (cmd : List Char) :
    isJumpForm cmd = true
      ↔ 2 < cmd.length ∧ (cmd.take 1 = ['j'] ∨ cmd.take 4 = ['j', 'u', 'm', 'p']) := by
  simp [isJumpForm]

/-- Lines in the `ignoredInput` class are absorbed as no-ops. -/
theorem navStep_ignored (n : Nat) (s : NavState) (r : Nat) (line : List Char)
    (h : ignoredInput n line = true) : navStep n s line r = .cont s := by
  by_cases hline : line = []
  · subst hline; rfl
  · simp only [ignoredInput, Bool.or_eq_true, beq_iff_eq, Bool.and_eq_true,
      Bool.not_eq_true'] at h
    rcases h with h | ⟨hlit, hrest⟩
    · exact absurd h hline
    · simp only [litCmds] at hlit
      simp at hlit
      obtain ⟨h1, h2, h3, h4, h5, h6, h7, h8, h9, h10⟩ := hlit
      simp only [navStep]
      rw [if_neg hline]
      rw [if_neg (by tauto)]
      rw [if_neg (by tauto)]
      rw [if_neg (by tauto)]
      rw [if_neg (by tauto)]
      by_cases hj : isJumpForm (trimLead line) = true
      · rw [if_pos ((isJumpForm_iff _).mp hj)]
        rw [if_pos hj] at hrest
        by_cases hns : (trimLead line).filter (fun c => c.isDigit || c == '-') = []
        · rw [if_pos hns]
        · rw [if_neg hns]
          rw [applyJump_outOfRange n s _ hrest]
      · rw [if_neg (fun hp => hj ((isJumpForm_iff _).mpr hp))]
        rw [if_neg (by tauto)]
        rw [if_neg hj] at hrest
        rw [applyJump_outOfRange n s _ hrest]

/-! ## Claims C4-C7, C9: the flashcard navigator -/

/-- Claim C4, counterexample: the input line `5th` is not one of the listed
command forms — it is not a literal command token (second conjunct) and not
a bare integer (third conjunct) — yet on a deck of size 5 it moves
`currentIndex` from 0 to 4, because the fallback branch's `std::stoi`
accepts the numeric prefix `5`. -/
theorem c4_counterexample_5th_jumps :
    navStep 5 ⟨0, false⟩ ['5', 't', 'h'] 0 = .cont ⟨4, false⟩ ∧
    litCmds.contains ['5', 't', 'h'] = false ∧
    (['5', 't', 'h'].all Char.isDigit) = false :=
  ⟨rfl, rfl, rfl⟩

/-- Claim C4 as amended: any input line that is ignored by the viewer —
the empty line, or a line whose trimmed form is none of the literal command
tokens and whose lenient numeric interpretation (the digit/minus characters
for a `j`/`jump`-form line, the `std::stoi` integer prefix otherwise) fails
to parse or falls outside `[1, N]` — leaves `currentIndex` and
`answerVisible` unchanged and the loop continues. This covers the claim's
examples (`jump 0`, `jump N+1`, non-numeric jump targets, empty lines,
unrecognized words with no integer prefix), but not words like `5th` whose
integer prefix is in range. -/
theorem c4_ignored_input_is_noop (n : Nat) (s : NavState) (r : Nat)
    (line : List Char) (h : ignoredInput n line = true) :
    navStep n s line r = .cont s :=
  navStep_ignored n s r line h

/-- Witness for C4's amended theorem: `jump 0` on a deck of size 3 is in the
ignored class and leaves the state `(2, true)` untouched. -/
theorem c4_ignored_input_is_noop_witness :
    ignoredInput 3 ['j', 'u', 'm', 'p', ' ', '0'] = true ∧
    navStep 3 ⟨2, true⟩ ['j', 'u', 'm', 'p', ' ', '0'] 9 = .cont ⟨2, true⟩ :=
  ⟨by decide, c4_ignored_input_is_noop 3 ⟨2, true⟩ 9 _ (by decide)⟩

/-- Claim C5: on a non-empty deck of size N, `currentIndex` stays in
`[0, N-1]` in every state reachable from `(0, false)` by any command
sequence (the final state of every input prefix is such a state, and the
inputs are universally quantified); on an empty deck the viewer exits
immediately after its no-op notice, never entering the loop. -/
theorem c5_index_invariant_and_empty_deck (deck : List Flashcard)
    (inputs : List (List Char × Nat)) :
    (deck = [] → run_flashcard_viewer deck inputs = none) ∧
    (deck ≠ [] → ∀ s : NavState,
      run_flashcard_viewer deck inputs = some s → s.idx < deck.length) := by
  constructor
  · intro h
    simp [run_flashcard_viewer, h]
  · intro h s hs
    simp only [run_flashcard_viewer, if_neg h] at hs
    injection hs with hs'
    subst hs'
    exact runLoop_idx_lt deck.length (List.length_pos.mpr h) inputs ⟨0, false⟩
      (List.length_pos.mpr h)

/-- Witness for C5 on a singleton deck and a one-command input. -/
theorem c5_index_invariant_witness :
    run_flashcard_viewer [⟨"q", "a"⟩] [(['n'], 0)] = some ⟨0, false⟩ ∧
    (⟨0, false⟩ : NavState).idx < 1 :=
  ⟨rfl, (c5_index_invariant_and_empty_deck [⟨"q", "a"⟩] [(['n'], 0)]).2
    (by simp) ⟨0, false⟩ rfl⟩

/-- Claim C6: `f`/`flip` toggles `answerVisible` and leaves the index
unchanged, while `n`/`next`, `p`/`prev`, `r`/`random` and an in-range
`jump` all force `answerVisible` to `false` whatever its prior value. -/
theorem c6_flip_toggles_navigation_hides (n : Nat) (s : NavState) (r : Nat) :
    navStep n s ['f'] r = .cont ⟨s.idx, !s.vis⟩ ∧
    navStep n s ['f', 'l', 'i', 'p'] r = .cont ⟨s.idx, !s.vis⟩ ∧
    navStep n s ['n'] r = .cont ⟨(s.idx + 1) % n, false⟩ ∧
    navStep n s ['n', 'e', 'x', 't'] r = .cont ⟨(s.idx + 1) % n, false⟩ ∧
    navStep n s ['p'] r = .cont ⟨(s.idx + n - 1) % n, false⟩ ∧
    navStep n s ['p', 'r', 'e', 'v'] r = .cont ⟨(s.idx + n - 1) % n, false⟩ ∧
    navStep n s ['r'] r = .cont ⟨r % n, false⟩ ∧
    navStep n s ['r', 'a', 'n', 'd', 'o', 'm'] r = .cont ⟨r % n, false⟩ ∧
    (∀ (ds : List Char) (t : Int), ds.all Char.isDigit = true →
      cstoi ds = some t → 1 ≤ t → t ≤ (n : Int) →
      navStep n s (['j', 'u', 'm', 'p', ' '] ++ ds) r = .cont ⟨(t - 1).toNat, false⟩) := by
  refine ⟨rfl, rfl, rfl, rfl, rfl, rfl, rfl, rfl, ?_⟩
  intro ds t hds hcs ht1 ht2
  have hfilter : (('j' :: (['u', 'm', 'p', ' '] ++ ds)).filter
      (fun c => c.isDigit || c == '-')) = ds := by
    simp only [List.filter_cons, List.filter_append]
    norm_num
    exact List.filter_eq_self.mpr (fun a ha => by
      simp [List.all_eq_true] at hds
      simp [hds a ha])
  have h := navStep_jprefix n s r (['u', 'm', 'p', ' '] ++ ds) (by simp)
  rw [show ('j' :: (['u', 'm', 'p', ' '] ++ ds))
      = ['j', 'u', 'm', 'p', ' '] ++ ds from rfl] at h
  rw [h]
  rw [show jumpAsClaimed n s (['j', 'u', 'm', 'p', ' '] ++ ds)
      = match cstoi ((['j', 'u', 'm', 'p', ' '] ++ ds).filter
          (fun c => c.isDigit || c == '-')) with
        | some t => if 1 ≤ t ∧ t ≤ (n : Int) then StepRes.cont ⟨(t - 1).toNat, false⟩
            else .cont s
        | none => .cont s from rfl]
  rw [show ((['j', 'u', 'm', 'p', ' '] ++ ds).filter (fun c => c.isDigit || c == '-'))
      = (('j' :: (['u', 'm', 'p', ' '] ++ ds)).filter (fun c => c.isDigit || c == '-'))
      from rfl]
  rw [hfilter, hcs]
  show (if 1 ≤ t ∧ t ≤ (n : Int) then StepRes.cont ⟨(t - 1).toNat, false⟩
      else StepRes.cont s) = StepRes.cont ⟨(t - 1).toNat, false⟩
  rw [if_pos ⟨ht1, ht2⟩]

/-- Witness for C6: flip and an in-range jump on a deck of size 2. -/
theorem c6_flip_toggles_navigation_hides_witness :
    navStep 2 ⟨0, true⟩ ['f'] 7 = .cont ⟨0, false⟩ ∧
    navStep 2 ⟨0, true⟩ ['j', 'u', 'm', 'p', ' ', '2'] 7 = .cont ⟨1, false⟩ :=
  ⟨(c6_flip_toggles_navigation_hides 2 ⟨0, true⟩ 7).1,
   (c6_flip_toggles_navigation_hides 2 ⟨0, true⟩ 7).2.2.2.2.2.2.2.2
     ['2'] 2 (by decide) (by decide) (by decide) (by decide)⟩

/-- Claim C7: from index 0 with any answer visibility, N `next` commands on
a deck of size N return the index to 0 with the answer hidden. -/
theorem c7_next_n_times_returns_home (n : Nat) (b : Bool) (hn : 0 < n) :
    runLoop n ⟨0, b⟩ (List.replicate n (['n', 'e', 'x', 't'], 0)) = ⟨0, false⟩ := by
  obtain ⟨m, rfl⟩ : ∃ m, n = m + 1 := ⟨n - 1, by omega⟩
  rw [runLoop_replicate_next (m + 1) m 0 b]
  congr 1
  simp

/-- Witness for C7 with a deck of size 3. -/
theorem c7_next_n_times_returns_home_witness :
    (0 : Nat) < 3 ∧
    runLoop 3 ⟨0, true⟩ (List.replicate 3 (['n', 'e', 'x', 't'], 0)) = ⟨0, false⟩ :=
  ⟨by decide, c7_next_n_times_returns_home 3 true (by decide)⟩

/-- Claim C9: every input line of length at least 3 whose first character
is `j` (which subsumes lines starting with `jump`) is handled as a jump
whose target is parsed from the concatenation of all digit and minus
characters anywhere in the line; in particular `j 1 2` jumps to card 12 on
a 12-card deck, and `java 3` jumps to card 3 on a 3-card deck. -/
theorem c9_j_lines_are_lenient_jumps :
    (∀ (n : Nat) (s : NavState) (r : Nat) (cs : List Char),
        3 ≤ cs.length → cs.head? = some 'j' →
        navStep n s cs r = jumpAsClaimed n s cs) ∧
    navStep 12 ⟨0, true⟩ ['j', ' ', '1', ' ', '2'] 0 = .cont ⟨11, false⟩ ∧
    navStep 3 ⟨0, true⟩ ['j', 'a', 'v', 'a', ' ', '3'] 0 = .cont ⟨2, false⟩ := by
  refine ⟨?_, rfl, rfl⟩
  intro n s r cs hlen hhead
  cases cs with
  | nil => simp at hhead
  | cons c cs' =>
    simp only [List.head?_cons, Option.some.injEq] at hhead
    subst hhead
    exact navStep_jprefix n s r cs' (by simp at hlen; omega)

/-- Witness for C9: a `j`-line with letters around its digits. -/
theorem c9_j_lines_are_lenient_jumps_witness :
    navStep 5 ⟨0, false⟩ ['j', 'x', '1'] 0 = jumpAsClaimed 5 ⟨0, false⟩ ['j', 'x', '1'] :=
  c9_j_lines_are_lenient_jumps.1 5 ⟨0, false⟩ 0 ['j', 'x', '1'] (by decide) rfl

/-- `firstIdx` finds exactly the minimal index holding `c`. -/
theorem firstIdx_eq_some (c : Char) (cs : List Char) :
    ∀ (i : Nat), cs[i]? = some c → (∀ k, k < i → cs[k]? ≠ some c) →
      firstIdx c cs = some i := by
  induction cs with
  | nil => intro i hget _; simp at hget
  | cons x xs ih =>
    intro i hget hmin
    by_cases hx : x = c
    · subst hx
      cases i with
      | zero => simp [firstIdx]
      | succ m =>
        exact absurd (by simp : (x :: xs)[0]? = some x) (hmin 0 (Nat.succ_pos m))
    · cases i with
      | zero =>
        simp only [List.getElem?_cons_zero, Option.some.injEq] at hget
        exact absurd hget hx
      | succ m =>
        simp only [List.getElem?_cons_succ] at hget
        have hmin' : ∀ k, k < m → xs[k]? ≠ some c := by
          intro k hk
          have := hmin (k + 1) (by omega)
          simpa using this
        simp [firstIdx, hx, ih m hget hmin']

/-- `firstIdx` misses exactly the absent characters. -/
theorem firstIdx_eq_none (c : Char) (cs : List Char) (h : ¬ c ∈ cs) :
    firstIdx c cs = none := by
  induction cs with
  | nil => rfl
  | cons x xs ih =>
    rw [List.mem_cons, not_or] at h
    rw [firstIdx, if_neg (fun hh => h.1 hh.symm), ih h.2]
    rfl

/-- `lastIdx` misses exactly the absent characters. -/
theorem lastIdx_eq_none (c : Char) (cs : List Char) (h : ¬ c ∈ cs) :
    lastIdx c cs = none := by
  induction cs with
  | nil => rfl
  | cons x xs ih =>
    rw [List.mem_cons, not_or] at h
    rw [lastIdx, ih h.2]
    exact if_neg (fun hh => h.1 hh.symm)

/-- `lastIdx` finds exactly the maximal index holding `c`. -/
theorem lastIdx_eq_some (c : Char) (cs : List Char) :
    ∀ (j : Nat), cs[j]? = some c → (∀ k, j < k → cs[k]? ≠ some c) →
      lastIdx c cs = some j := by
  induction cs with
  | nil => intro j hget _; simp at hget
  | cons x xs ih =>
    intro j hget hmax
    cases j with
    | zero =>
      simp only [List.getElem?_cons_zero, Option.some.injEq] at hget
      have hnone : lastIdx c xs = none := by
        refine lastIdx_eq_none c xs ?_
        intro hmem
        obtain ⟨k, hk⟩ := List.mem_iff_getElem?.mp hmem
        exact hmax (k + 1) (by omega) (by simpa using hk)
      rw [lastIdx, hnone]
      exact if_pos hget
    | succ m =>
      simp only [List.getElem?_cons_succ] at hget
      have hmax' : ∀ k, m < k → xs[k]? ≠ some c := by
        intro k hk
        have := hmax (k + 1) (by omega)
        simpa using this
      rw [lastIdx, ih m hget hmax']

/-! ## Claim C2: extract_json_block -/

/-- Claim C2: for every assistant content string, `extract_json_block`
returns exactly the inclusive substring from the first open brace (the
minimal index `i` holding one) to the last close brace (the maximal index
`j` holding one) when `i < j`, and fails precisely when either brace is
absent or the last close brace precedes or coincides with the first open
brace. -/
theorem c2_extract_json_block_first_last (cs : List Char) :
    (∀ i j : Nat,
      cs[i]? = some '\x7b' → (∀ k, k < i → cs[k]? ≠ some '\x7b') →
      cs[j]? = some '\x7d' → (∀ k, j < k → cs[k]? ≠ some '\x7d') →
      (i < j → extract_json_block cs = .ok ((cs.drop i).take (j - i + 1))) ∧
      (j ≤ i → extract_json_block cs = .error ())) ∧
    ((¬ '\x7b' ∈ cs ∨ ¬ '\x7d' ∈ cs) → extract_json_block cs = .error ()) := by
  constructor
  · intro i j hgi hmi hgj hmj
    have hf := firstIdx_eq_some '\x7b' cs i hgi hmi
    have hl := lastIdx_eq_some '\x7d' cs j hgj hmj
    constructor
    · intro hij
      have : ¬ j ≤ i := by omega
      simp [extract_json_block, hf, hl, this]
    · intro hji
      simp [extract_json_block, hf, hl, hji]
  · rintro (h | h)
    · simp [extract_json_block, firstIdx_eq_none '\x7b' cs h]
    · cases hf : firstIdx '\x7b' cs <;>
        simp [extract_json_block, hf, lastIdx_eq_none '\x7d' cs h]

/-- Witness for C2: on `a{b}c}` the first open brace is at index 1, the
last close brace at index 5, and the extracted block is `{b}c}`. -/
theorem c2_extract_json_block_first_last_witness :
    extract_json_block ['a', '\x7b', 'b', '\x7d', 'c', '\x7d']
      = .ok ['\x7b', 'b', '\x7d', 'c', '\x7d'] := by
  have h := (c2_extract_json_block_first_last
    ['a', '\x7b', 'b', '\x7d', 'c', '\x7d']).1 1 5 (by decide)
    (by
      intro k hk
      interval_cases k
      decide)
    (by decide)
    (by
      intro k hk
      have hlen : (['a', '\x7b', 'b', '\x7d', 'c', '\x7d'] : List Char).length ≤ k := by
        simp
        omega
      rw [List.getElem?_eq_none hlen]
      simp)
  exact h.1 (by decide)

/-- `value(key, "")` succeeds on an object whose key is absent or bound to
a string, returning the default exactly when the key is absent. -/
theorem jValueStr_ok (j : Json) (k : String) (hobj : isObjJ j = true)
    (hk : strOrMissing j k = true) :
    ∃ s, jValueStr j k = .ok s ∧ (jLookup j k = none → s = "") := by
  cases j with
  | obj kvs =>
    simp only [strOrMissing, jLookup] at hk
    cases hlk : kvs.lookup k with
    | none => exact ⟨"", by simp [jValueStr, hlk], fun _ => rfl⟩
    | some v =>
      rw [hlk] at hk
      cases v
      case str st =>
        refine ⟨st, by simp [jValueStr, hlk], fun hn => ?_⟩
        rw [jLookup, hlk] at hn
        cases hn
      all_goals simp at hk
  | null => simp [isObjJ] at hobj
  | bool b => simp [isObjJ] at hobj
  | num m => simp [isObjJ] at hobj
  | str st => simp [isObjJ] at hobj
  | arr xs => simp [isObjJ] at hobj

/-- `get<std::string>` succeeds on strings. -/
theorem jGetStr_ok (j : Json) (h : isStrJ j = true) : ∃ s, jGetStr j = .ok s := by
  cases j <;> simp_all [isStrJ, jGetStr]

/-- `mapM` of an elementwise-total function succeeds. -/
theorem mapM_ok_of_all {α β : Type} (f : α → Except Unit β) (p : α → Bool)
    (hf : ∀ a, p a = true → ∃ b, f a = .ok b) :
    ∀ (xs : List α), xs.all p = true → ∃ ys, xs.mapM f = .ok ys := by
  intro xs
  induction xs with
  | nil => intro _; exact ⟨[], rfl⟩
  | cons a as ih =>
    intro h
    rw [List.all_cons, Bool.and_eq_true] at h
    obtain ⟨b, hb⟩ := hf a h.1
    obtain ⟨ys, hys⟩ := ih h.2
    refine ⟨b :: ys, ?_⟩
    rw [List.mapM_cons, hb, hys]
    rfl

/-- A well-typed `definitions` element parses. -/
theorem defOfJson_ok (d : Json) (h : defWT d = true) : ∃ x, defOfJson d = .ok x := by
  simp only [defWT, Bool.and_eq_true] at h
  obtain ⟨⟨hobj, ht⟩, hd⟩ := h
  obtain ⟨t, hts, _⟩ := jValueStr_ok d "term" hobj ht
  obtain ⟨df, hdfs, _⟩ := jValueStr_ok d "definition" hobj hd
  exact ⟨⟨t, df⟩, by rw [defOfJson, hts, hdfs]; rfl⟩

/-- A well-typed `flashcards` element parses. -/
theorem cardOfJson_ok (fc : Json) (h : cardWT fc = true) :
    ∃ x, cardOfJson fc = .ok x := by
  simp only [cardWT, Bool.and_eq_true] at h
  obtain ⟨⟨hobj, hq⟩, ha⟩ := h
  obtain ⟨q, hqs, _⟩ := jValueStr_ok fc "question" hobj hq
  obtain ⟨a, has, _⟩ := jValueStr_ok fc "answer" hobj ha
  exact ⟨⟨q, a⟩, by rw [cardOfJson, hqs, has]; rfl⟩

/-! ## Claim C3: domain parsers -/

/-- Claim C3, counterexample: the syntactically valid JSON object
`\x7b"key_points":[1]\x7d` makes the Summary Parser fail, because line 325
converts each `key_points` element with `get<std::string>()`, which throws
`type_error.302` on the number `1`. The claim's assertion that no
present-but-malformed field ever makes the parse fail is therefore
false. -/
theorem c3_counterexample_numeric_key_point :
    parse_summary (Json.obj [("key_points", Json.arr [Json.num 1])]) = .error () := rfl

/-- Claim C3 as amended: on every well-typed payload (`summaryWT`,
`flashWT`: present fields have the expected types) both parsers succeed,
a missing `summary` yields `""` and a missing `key_points`, `definitions`
or `flashcards` yields an empty sequence; and, per the spec's own test
vector, an array element missing its `answer` yields `""` for that field.
Present but wrongly-typed fields (excluded by the well-typedness
hypotheses) make the parse fail, as the counterexample shows. -/
theorem c3_parsers_permissive_on_well_typed (j1 j2 : Json)
    (h1 : summaryWT j1 = true) (h2 : flashWT j2 = true) :
    (∃ r : SummaryResult, parse_summary j1 = .ok r ∧
      (jLookup j1 "summary" = none → r.summary = "") ∧
      (jLookup j1 "key_points" = none → r.keyPoints = []) ∧
      (jLookup j1 "definitions" = none → r.definitions = [])) ∧
    (∃ f : FlashcardResult, parse_flashcards j2 = .ok f ∧
      (jLookup j2 "flashcards" = none → f.flashcards = [])) ∧
    parse_flashcards (Json.obj [("flashcards", Json.arr
      [Json.obj [("question", Json.str "Q1"), ("answer", Json.str "A1")],
       Json.obj [("question", Json.str "Q2")]])])
      = .ok ⟨[⟨"Q1", "A1"⟩, ⟨"Q2", ""⟩]⟩ := by
  refine ⟨?_, ?_, rfl⟩
  · simp only [summaryWT, Bool.and_eq_true] at h1
    obtain ⟨⟨⟨hobj, hsum⟩, hkp⟩, hdef⟩ := h1
    obtain ⟨s, hs, hsdef⟩ := jValueStr_ok j1 "summary" hobj hsum
    have hkpoints : ∃ kp : List String, keyPointsOf j1 = .ok kp ∧
        (jLookup j1 "key_points" = none → kp = []) := by
      rw [keyPointsOf]
      cases hlkp : jLookup j1 "key_points" with
      | none => exact ⟨[], rfl, fun _ => rfl⟩
      | some v =>
        cases v
        case arr xs =>
          rw [hlkp] at hkp
          obtain ⟨ys, hys⟩ := mapM_ok_of_all jGetStr isStrJ jGetStr_ok xs hkp
          exact ⟨ys, hys, fun hn => by simp [hlkp] at hn⟩
        all_goals exact ⟨[], rfl, fun hn => by simp [hlkp] at hn⟩
    have hdefs : ∃ ds : List Definition, definitionsOf j1 = .ok ds ∧
        (jLookup j1 "definitions" = none → ds = []) := by
      rw [definitionsOf]
      cases hld : jLookup j1 "definitions" with
      | none => exact ⟨[], rfl, fun _ => rfl⟩
      | some v =>
        cases v
        case arr xs =>
          rw [hld] at hdef
          obtain ⟨ys, hys⟩ := mapM_ok_of_all defOfJson defWT defOfJson_ok xs hdef
          exact ⟨ys, hys, fun hn => by simp [hld] at hn⟩
        all_goals exact ⟨[], rfl, fun hn => by simp [hld] at hn⟩
    obtain ⟨kp, hkps, hkpdef⟩ := hkpoints
    obtain ⟨ds, hdss, hdsdef⟩ := hdefs
    refine ⟨⟨s, kp, ds⟩, ?_, fun hn => hsdef hn, fun hn => hkpdef hn, fun hn => hdsdef hn⟩
    rw [parse_summary, hs, hkps, hdss]
    rfl
  · simp only [flashWT] at h2
    have hcards : ∃ cs : List Flashcard, cardsOf j2 = .ok cs ∧
        (jLookup j2 "flashcards" = none → cs = []) := by
      rw [cardsOf]
      cases hlf : jLookup j2 "flashcards" with
      | none => exact ⟨[], rfl, fun _ => rfl⟩
      | some v =>
        cases v
        case arr xs =>
          rw [hlf] at h2
          obtain ⟨ys, hys⟩ := mapM_ok_of_all cardOfJson cardWT cardOfJson_ok xs h2
          exact ⟨ys, hys, fun hn => by simp [hlf] at hn⟩
        all_goals exact ⟨[], rfl, fun hn => by simp [hlf] at hn⟩
    obtain ⟨cs, hcs, hcsdef⟩ := hcards
    refine ⟨⟨cs⟩, ?_, fun hn => hcsdef hn⟩
    rw [parse_flashcards, hcs]
    rfl

/-- Witness for C3's amended theorem: the empty object is well-typed for
both parsers and yields fully defaulted results. -/
theorem c3_parsers_permissive_witness :
    (∃ r : SummaryResult, parse_summary (Json.obj []) = .ok r ∧
      (jLookup (Json.obj []) "summary" = none → r.summary = "") ∧
      (jLookup (Json.obj []) "key_points" = none → r.keyPoints = []) ∧
      (jLookup (Json.obj []) "definitions" = none → r.definitions = [])) ∧
    (∃ f : FlashcardResult, parse_flashcards (Json.obj []) = .ok f ∧
      (jLookup (Json.obj []) "flashcards" = none → f.flashcards = [])) ∧
    parse_flashcards (Json.obj [("flashcards", Json.arr
      [Json.obj [("question", Json.str "Q1"), ("answer", Json.str "A1")],
       Json.obj [("question", Json.str "Q2")]])])
      = .ok ⟨[⟨"Q1", "A1"⟩, ⟨"Q2", ""⟩]⟩ :=
  c3_parsers_permissive_on_well_typed (Json.obj []) (Json.obj []) rfl rfl

/-! ## Claims C1, C8, C10: the session orchestrator -/

/-- Demo transport used to exercise the pipeline on concrete runs: always
returns the same raw body. -/
def llmDemo : String → Except Unit String := fun _ => .ok "RAW"

/-- Demo JSON parser used to exercise the pipeline on concrete runs: knows
the demo raw body (a well-formed provider response whose assistant content
is an empty JSON object) and the empty-object payload. -/
def jparseDemo : String → Except Unit Json := fun s =>
  if s = "RAW" then
    .ok (Json.obj [("choices", Json.arr
      [Json.obj [("message", Json.obj [("content", Json.str "\x7b\x7d")])]])])
  else if s = "\x7b\x7d" then .ok (Json.obj [])
  else .error ()

/-- Claim C1: the source comment (line 422) says an unparseable choice
defaults to 3, running both flows. In fact C++11 stream extraction stores 0
in `choice` and sets the failbit on failure, so the subsequent `getline`
fails, the program exits early with "No input detected", and neither flow
runs (first conjunct). With the same downstream input and the token `3`
instead, the summary flow is entered (second conjunct; the transport error
then ends the session), and with working collaborators both flows run
(third conjunct) — so the early exit is caused by the unparseable token
alone. -/
theorem c1_unparseable_choice_runs_no_flow :
    mainProgram ['x', '\n', 'h', 'i', '\n', '\n']
      (fun _ => .error ()) (fun _ => .error ()) = ⟨0, false, false⟩ ∧
    mainProgram ['3', '\n', 'h', 'i', '\n', '\n']
      (fun _ => .error ()) (fun _ => .error ()) = ⟨0, true, false⟩ ∧
    mainProgram ['3', '\n', 'h', 'i', '\n', '\n'] llmDemo jparseDemo
      = ⟨0, true, true⟩ := ⟨rfl, rfl, rfl⟩

/-- Claim C8: the backslash-continuation convention does hold (second
conjunct: a line ending in `\` has the backslash stripped, a newline
inserted, and the next line appended), but plain multi-line input is NOT
read until the empty line: with lines `abc`, `def`, `` the text is just
`abc` and `def` is left unconsumed (first conjunct), contradicting the
claim that all lines before the empty line become part of the user
text. -/
theorem c8_plain_lines_not_all_consumed :
    readUserText [['a', 'b', 'c'], ['d', 'e', 'f'], []]
      = some (['a', 'b', 'c'], [['d', 'e', 'f'], []]) ∧
    readUserText [['a', 'b', '\\'], ['d', 'e', 'f'], []]
      = some (['a', 'b', '\n', 'd', 'e', 'f'], [[]]) := ⟨rfl, rfl⟩

/-- Claim C10: whatever the standard input and whatever the external
transport and JSON parser do, the process exits with status 0: the early
input-validation exits return 0, and every pipeline failure is caught by
the single top-level handler which reports it and falls through to
`return 0`. -/
theorem c10_exit_status_always_zero (stdin : List Char)
    (llm : String → Except Unit String) (jparse : String → Except Unit Json) :
    (mainProgram stdin llm jparse).exitCode = 0 := by
  unfold mainProgram
  repeat' (first | split | dsimp only)
